import Mathlib

/-!
Verification of `gbk_to_sqlite/core.py` (gbk-to-sqlite).

The Python module streams GenBank records, flattens them into four
relational tables (genome, record, feature, qualifier) and bulk-loads the
feature and qualifier rows in batches.  We embed the data model and the
conversion loop as pure Lean functions over an explicit database state,
and record every database call and warning in an event trace.
-/

namespace GbkToSqlite

/-- Strand of a feature location, as produced by the parsing library;
`str` is its string form (`+` or `-`). -/
inductive Strand where
  | plus
  | minus
deriving DecidableEq, Repr

def Strand.str : Strand → String
  | .plus => "+"
  | .minus => "-"

/-- A feature location.  `withStrand` models location objects that expose
`start`, `end` and `strand` attributes (strand possibly `None`);
`noStrand` models composite/join locations lacking a `strand` attribute,
whose `start`/`end` attributes may also be individually absent. -/
inductive Location where
  | withStrand (start stop : Int) (strand : Option Strand)
  | noStrand (start stop : Option Int)
deriving DecidableEq, Repr

/-- A key/value qualifier attached to a feature. -/
structure QualifierQ where
  key : String
  value : String
deriving DecidableEq, Repr

/-- A parsed GenBank feature: a location plus its qualifiers. -/
structure FeatureF where
  location : Location
  qualifiers : List QualifierQ
deriving DecidableEq, Repr

/-- A parsed top-level GenBank record. -/
structure GBRecord where
  name : String
  definition : String
  accession : String
  version : String
  features : List FeatureF
deriving DecidableEq, Repr

/-- A row of the `genome` table: one per input file. -/
structure GenomeRow where
  id : Nat
  gbk_path : String
deriving DecidableEq, Repr

/-- A row of the `record` table. -/
structure RecordRow where
  id : Nat
  genome_id : Nat
  name : String
  definition : String
  accession : String
  version : String
deriving DecidableEq, Repr

/-- A row of the `feature` table, in the column order
`(genome_id, record_id, feature_index, location_start, location_end,
location_strand)` used by `convert_gbk_to_sqlite`. -/
structure FeatureRow where
  genome_id : Nat
  record_id : Nat
  feature_index : Nat
  location_start : Option Int
  location_end : Option Int
  location_strand : Option String
deriving DecidableEq, Repr

/-- A row of the `qualifier` table, in the column order
`(genome_id, record_id, feature_index, key, value)`. -/
structure QualifierRow where
  genome_id : Nat
  record_id : Nat
  feature_index : Nat
  key : String
  value : String
deriving DecidableEq, Repr

/-- Modelled from the spec: the ORM models module (`models.py`, not part
of the given sources) supplies the four tables and "auto-incrementing
identifier assignment on single-row insert with immediate id retrieval"
(spec §6); we carry the tables and the two id counters explicitly, and
`Genome.create` / `Record.create` insert "individually and immediately"
(spec §3). -/
structure DB where
  genomeTable : List GenomeRow
  recordTable : List RecordRow
  featureTable : List FeatureRow
  qualifierTable : List QualifierRow
  nextGenomeId : Nat
  nextRecordId : Nat
deriving DecidableEq, Repr

/-- A freshly-created database, as on first use of the ORM models. -/
def emptyDB : DB :=
  { genomeTable := [], recordTable := [], featureTable := [],
    qualifierTable := [], nextGenomeId := 0, nextRecordId := 0 }

/-- Observable database calls and diagnostics of a conversion run, in
order. -/
inductive Event where
  | genomeInsert (id : Nat)
  | recordInsert (id : Nat)
  | bulkInsert (table : String) (rows : Nat)
  | warn (msg : String)
deriving DecidableEq, Repr

/-- `_bulk_insert_tuples`: given buffered row tuples and the current
table contents, return the new table contents and whether an insert
transaction was performed.  Empty input returns immediately, opening no
transaction; otherwise all rows are appended in buffering order in one
call. -/
def bulk_insert_tuples {α : Type} (values : List α) (table : List α) :
    List α × Bool :=
  if values.isEmpty then (table, false) else (table ++ values, true)

/-- The mutable state of `convert_gbk_to_sqlite`: the database, the two
independent row buffers, and the event trace. -/
structure ConvState where
  db : DB
  featureBuf : List FeatureRow
  qualifierBuf : List QualifierRow
  events : List Event
deriving DecidableEq, Repr

/-- Appending a feature tuple (lines 84–98 of `core.py`): push the row,
then if the buffer length has reached `batch_size` bulk-insert exactly
this buffer and clear it. -/
def appendFeature (batchSize : Int) (row : FeatureRow) (s : ConvState) :
    ConvState :=
  let buf := s.featureBuf ++ [row]
  if (buf.length : Int) ≥ batchSize then
    let r := bulk_insert_tuples buf s.db.featureTable
    { s with db := { s.db with featureTable := r.1 },
             featureBuf := [],
             events :=
               if r.2 then s.events ++ [Event.bulkInsert "feature" buf.length]
               else s.events }
  else
    { s with featureBuf := buf }

/-- Appending a qualifier tuple (lines 99–113 of `core.py`): same
batching discipline on the qualifier buffer. -/
def appendQualifier (batchSize : Int) (row : QualifierRow) (s : ConvState) :
    ConvState :=
  let buf := s.qualifierBuf ++ [row]
  if (buf.length : Int) ≥ batchSize then
    let r := bulk_insert_tuples buf s.db.qualifierTable
    { s with db := { s.db with qualifierTable := r.1 },
             qualifierBuf := [],
             events :=
               if r.2 then s.events ++ [Event.bulkInsert "qualifier" buf.length]
               else s.events }
  else
    { s with qualifierBuf := buf }

/-- The location fields used for a feature row (lines 68–82 of
`core.py`): a location with a `strand` attribute contributes its start,
end and the string form of its strand (absent when the strand is
`None`); a location without one contributes whichever of start/end it
has, and no strand. -/
def locationFields : Location → Option Int × Option Int × Option String
  | .withStrand st en strand => (some st, some en, strand.map Strand.str)
  | .noStrand st en => (st, en, none)

/-- The warning text of line 70 of `core.py`. -/
def strandWarning (idx : Nat) (recordName : String) : String :=
  s!"Feature {idx} of record {recordName} does not have strand attribute"

/-- Processing one feature at index `idx` of a record (lines 66–113 of
`core.py`): warn when the location lacks a strand attribute, append the
feature tuple, then append one qualifier tuple per qualifier. -/
def processFeature (batchSize : Int) (genomeId recordId : Nat)
    (recordName : String) (idx : Nat) (f : FeatureF) (s : ConvState) :
    ConvState :=
  let s :=
    match f.location with
    | .noStrand _ _ =>
        { s with events := s.events ++ [Event.warn (strandWarning idx recordName)] }
    | .withStrand _ _ _ => s
  let fields := locationFields f.location
  let s := appendFeature batchSize
    { genome_id := genomeId, record_id := recordId, feature_index := idx,
      location_start := fields.1, location_end := fields.2.1,
      location_strand := fields.2.2 } s
  f.qualifiers.foldl
    (fun s q =>
      appendQualifier batchSize
        { genome_id := genomeId, record_id := recordId, feature_index := idx,
          key := q.key, value := q.value } s)
    s

/-- Processing one record (lines 57–113 of `core.py`): insert the Record
row immediately (receiving a fresh id), then process its features in
enumeration order. -/
def processRecord (batchSize : Int) (genomeId : Nat) (r : GBRecord)
    (s : ConvState) : ConvState :=
  let recordId := s.db.nextRecordId
  let s :=
    { s with
        db := { s.db with
                  recordTable := s.db.recordTable ++
                    [{ id := recordId, genome_id := genomeId, name := r.name,
                       definition := r.definition, accession := r.accession,
                       version := r.version }],
                  nextRecordId := recordId + 1 },
        events := s.events ++ [Event.recordInsert recordId] }
  r.features.enum.foldl
    (fun s p => processFeature batchSize genomeId recordId r.name p.1 p.2 s)
    s

/-- The record loop of `convert_gbk_to_sqlite` (lines 57–113). -/
def convertLoop (batchSize : Int) (genomeId : Nat) (records : List GBRecord)
    (s : ConvState) : ConvState :=
  records.foldl (fun s r => processRecord batchSize genomeId r s) s

/-- The state right after `Genome.create` (line 43 of `core.py`): the
Genome row is inserted and committed, buffers are empty, and the genome
insert is the first database call of the run. -/
def initState (gbkPath : String) (db0 : DB) : ConvState :=
  { db := { db0 with
              genomeTable := db0.genomeTable ++
                [{ id := db0.nextGenomeId, gbk_path := gbkPath }],
              nextGenomeId := db0.nextGenomeId + 1 },
    featureBuf := [], qualifierBuf := [],
    events := [Event.genomeInsert db0.nextGenomeId] }

/-- The end-of-input flush of the feature buffer (lines 116–117):
performed only when the buffer is non-empty. -/
def finalFlushFeature (s : ConvState) : ConvState :=
  if s.featureBuf.isEmpty then s
  else
    let r := bulk_insert_tuples s.featureBuf s.db.featureTable
    { s with db := { s.db with featureTable := r.1 },
             featureBuf := [],
             events :=
               if r.2 then
                 s.events ++ [Event.bulkInsert "feature" s.featureBuf.length]
               else s.events }

/-- The end-of-input flush of the qualifier buffer (lines 119–120). -/
def finalFlushQualifier (s : ConvState) : ConvState :=
  if s.qualifierBuf.isEmpty then s
  else
    let r := bulk_insert_tuples s.qualifierBuf s.db.qualifierTable
    { s with db := { s.db with qualifierTable := r.1 },
             qualifierBuf := [],
             events :=
               if r.2 then
                 s.events ++ [Event.bulkInsert "qualifier" s.qualifierBuf.length]
               else s.events }

/-- `convert_gbk_to_sqlite` on a file that parses into `records`:
create the Genome row, stream the records through the flattener and the
batch buffers, and flush any non-empty buffer once at end of input. -/
def convert_gbk_to_sqlite (gbkPath : String) (batchSize : Int)
    (records : List GBRecord) (db0 : DB) : ConvState :=
  let s := initState gbkPath db0
  let s := convertLoop batchSize db0.nextGenomeId records s
  finalFlushQualifier (finalFlushFeature s)

/-- `convert_gbk_to_sqlite` on a file whose iteration raises (IOError or
ParseError) after yielding `okRecords` records: the run aborts inside the
loop, so the final flushes never execute, but the Genome row was already
created.  `okRecords = []` models a failure on opening the file or on the
very first record. -/
def convertAborted (gbkPath : String) (batchSize : Int)
    (okRecords : List GBRecord) (db0 : DB) : ConvState :=
  convertLoop batchSize db0.nextGenomeId okRecords (initState gbkPath db0)

/-- An index of SQLite's catalog, identified by its name. -/
structure IndexDef where
  name : String
  table : String
  columns : List String
deriving DecidableEq, Repr

/-- `CREATE INDEX IF NOT EXISTS`: add the index unless one with that name
already exists; never an error, never a duplicate. -/
def createIndexIfNotExists (idx : IndexDef) (ixs : List IndexDef) :
    List IndexDef :=
  if ixs.any (fun i => i.name == idx.name) then ixs else ixs ++ [idx]

/-- `create_indexes` (lines 143–151 of `core.py`): the four secondary
indexes, each created with if-absent semantics. -/
def create_indexes (ixs : List IndexDef) : List IndexDef :=
  createIndexIfNotExists { name := "idx_record_genome", table := "record", columns := ["genome"] }
    (createIndexIfNotExists { name := "idx_feature_record", table := "feature", columns := ["record"] }
      (createIndexIfNotExists { name := "idx_qualifier_feature_key", table := "qualifier", columns := ["feature", "key"] }
        (createIndexIfNotExists { name := "idx_qualifier_feature", table := "qualifier", columns := ["feature"] } ixs)))

/-! ### Spec-level flattening

Pure descriptions of the rows a conversion run produces, independent of
the batching machinery.  These are compared with the state produced by
the embedded loop. -/

/-- All rows ever destined for the feature table: committed rows followed
by the still-buffered ones. -/
def featAll (s : ConvState) : List FeatureRow :=
  s.db.featureTable ++ s.featureBuf

/-- All rows ever destined for the qualifier table. -/
def qualAll (s : ConvState) : List QualifierRow :=
  s.db.qualifierTable ++ s.qualifierBuf

/-- The feature row contributed by one feature. -/
def featureRowOf (genomeId recordId idx : Nat) (f : FeatureF) : FeatureRow :=
  { genome_id := genomeId, record_id := recordId, feature_index := idx,
    location_start := (locationFields f.location).1,
    location_end := (locationFields f.location).2.1,
    location_strand := (locationFields f.location).2.2 }

/-- The qualifier rows contributed by one feature, in qualifier order. -/
def qualRowsOf (genomeId recordId idx : Nat) (f : FeatureF) :
    List QualifierRow :=
  f.qualifiers.map (fun q =>
    { genome_id := genomeId, record_id := recordId, feature_index := idx,
      key := q.key, value := q.value })

/-- The feature rows contributed by one record, in enumeration order. -/
def recFeatureRows (genomeId recordId : Nat) (r : GBRecord) :
    List FeatureRow :=
  r.features.enum.map (fun p => featureRowOf genomeId recordId p.1 p.2)

/-- The qualifier rows contributed by one record. -/
def recQualRows (genomeId recordId : Nat) (r : GBRecord) :
    List QualifierRow :=
  r.features.enum.flatMap (fun p => qualRowsOf genomeId recordId p.1 p.2)

/-- The Record row created for one record. -/
def recordRowOf (genomeId recordId : Nat) (r : GBRecord) : RecordRow :=
  { id := recordId, genome_id := genomeId, name := r.name,
    definition := r.definition, accession := r.accession,
    version := r.version }

/-- Record rows of a whole run, ids assigned consecutively from `rid0`. -/
def allRecordRows (genomeId rid0 : Nat) : List GBRecord → List RecordRow
  | [] => []
  | r :: rest => recordRowOf genomeId rid0 r :: allRecordRows genomeId (rid0 + 1) rest

/-- Feature rows of a whole run. -/
def allFeatureRows (genomeId rid0 : Nat) : List GBRecord → List FeatureRow
  | [] => []
  | r :: rest =>
      recFeatureRows genomeId rid0 r ++ allFeatureRows genomeId (rid0 + 1) rest

/-- Qualifier rows of a whole run. -/
def allQualRows (genomeId rid0 : Nat) : List GBRecord → List QualifierRow
  | [] => []
  | r :: rest =>
      recQualRows genomeId rid0 r ++ allQualRows genomeId (rid0 + 1) rest

/-- The database a successful conversion leaves behind, described without
reference to batching. -/
def finalDB (gbkPath : String) (records : List GBRecord) (db0 : DB) : DB :=
  { genomeTable := db0.genomeTable ++ [{ id := db0.nextGenomeId, gbk_path := gbkPath }],
    recordTable := db0.recordTable ++ allRecordRows db0.nextGenomeId db0.nextRecordId records,
    featureTable := db0.featureTable ++ allFeatureRows db0.nextGenomeId db0.nextRecordId records,
    qualifierTable := db0.qualifierTable ++ allQualRows db0.nextGenomeId db0.nextRecordId records,
    nextGenomeId := db0.nextGenomeId + 1,
    nextRecordId := db0.nextRecordId + records.length }

/-- Number of warnings in a trace. -/
def warnCount (evs : List Event) : Nat :=
  evs.countP (fun e => match e with | .warn _ => true | _ => false)

/-- `true` iff every bulk-insert call recorded in the trace was given at
most `b` row tuples. -/
def eventSizesLE (b : Int) (evs : List Event) : Bool :=
  evs.all (fun e => match e with
    | .bulkInsert _ n => decide ((n : Int) ≤ b)
    | _ => true)

/-! ### Characterization of the append operations -/

theorem appendFeature_eq (b : Int) (row : FeatureRow) (s : ConvState) :
    appendFeature b row s =
      if ((s.featureBuf.length + 1 : Int) ≥ b) then
        { s with db := { s.db with
                   featureTable := s.db.featureTable ++ (s.featureBuf ++ [row]) },
                 featureBuf := [],
                 events := s.events ++
                   [Event.bulkInsert "feature" (s.featureBuf.length + 1)] }
      else { s with featureBuf := s.featureBuf ++ [row] } := by
  unfold appendFeature bulk_insert_tuples
  have hne : (s.featureBuf ++ [row]).isEmpty = false := by simp
  simp only [hne, List.length_append, List.length_singleton, Bool.false_eq_true,
    if_false, Nat.cast_add, Nat.cast_one]
  split <;> simp

theorem appendQualifier_eq (b : Int) (row : QualifierRow) (s : ConvState) :
    appendQualifier b row s =
      if ((s.qualifierBuf.length + 1 : Int) ≥ b) then
        { s with db := { s.db with
                   qualifierTable := s.db.qualifierTable ++ (s.qualifierBuf ++ [row]) },
                 qualifierBuf := [],
                 events := s.events ++
                   [Event.bulkInsert "qualifier" (s.qualifierBuf.length + 1)] }
      else { s with qualifierBuf := s.qualifierBuf ++ [row] } := by
  unfold appendQualifier bulk_insert_tuples
  have hne : (s.qualifierBuf ++ [row]).isEmpty = false := by simp
  simp only [hne, List.length_append, List.length_singleton, Bool.false_eq_true,
    if_false, Nat.cast_add, Nat.cast_one]
  split <;> simp

/-! ### Effect of each step on the accumulated rows

`Extends s t df dq dr k` says state `t` is state `s` with `df` more
feature rows (committed or buffered), `dq` more qualifier rows, `dr` more
record rows, `k` more record ids consumed, everything in order, the
genome table untouched and the event trace only appended to. -/

def Extends (s t : ConvState) (df : List FeatureRow) (dq : List QualifierRow)
    (dr : List RecordRow) (k : Nat) : Prop :=
  featAll t = featAll s ++ df ∧
  qualAll t = qualAll s ++ dq ∧
  t.db.genomeTable = s.db.genomeTable ∧
  t.db.recordTable = s.db.recordTable ++ dr ∧
  t.db.nextGenomeId = s.db.nextGenomeId ∧
  t.db.nextRecordId = s.db.nextRecordId + k ∧
  ∃ δ, t.events = s.events ++ δ

theorem Extends.trans {s t u : ConvState} {df df' dq dq' dr dr' k k'}
    (h1 : Extends s t df dq dr k) (h2 : Extends t u df' dq' dr' k') :
    Extends s u (df ++ df') (dq ++ dq') (dr ++ dr') (k + k') := by
  obtain ⟨a1, a2, a3, a4, a5, a6, δ1, a7⟩ := h1
  obtain ⟨b1, b2, b3, b4, b5, b6, δ2, b7⟩ := h2
  refine ⟨?_, ?_, ?_, ?_, ?_, ?_, δ1 ++ δ2, ?_⟩ <;>
    simp [b1, a1, b2, a2, b3, a3, b4, a4, b5, a5, b6, a6, b7, a7,
      List.append_assoc, Nat.add_assoc]

theorem Extends.refl (s : ConvState) : Extends s s [] [] [] 0 :=
  ⟨by simp, by simp, rfl, by simp, rfl, rfl, [], by simp⟩

theorem appendFeature_extends (b : Int) (row : FeatureRow) (s : ConvState) :
    Extends s (appendFeature b row s) [row] [] [] 0 := by
  rw [appendFeature_eq]
  split
  · exact ⟨by simp [featAll], by simp [qualAll], rfl, by simp, rfl, rfl,
      [Event.bulkInsert "feature" (s.featureBuf.length + 1)], rfl⟩
  · exact ⟨by simp [featAll], by simp [qualAll], rfl, by simp, rfl, rfl,
      [], by simp⟩

theorem appendQualifier_extends (b : Int) (row : QualifierRow) (s : ConvState) :
    Extends s (appendQualifier b row s) [] [row] [] 0 := by
  rw [appendQualifier_eq]
  split
  · exact ⟨by simp [featAll], by simp [qualAll], rfl, by simp, rfl, rfl,
      [Event.bulkInsert "qualifier" (s.qualifierBuf.length + 1)], rfl⟩
  · exact ⟨by simp [featAll], by simp [qualAll], rfl, by simp, rfl, rfl,
      [], by simp⟩

theorem foldl_appendQualifier_extends {α : Type} (b : Int) (g : α → QualifierRow) :
    ∀ (qs : List α) (s : ConvState),
      Extends s (qs.foldl (fun s q => appendQualifier b (g q) s) s) [] (qs.map g) [] 0
  | [], s => Extends.refl s
  | q :: qs, s => by
    have h1 := appendQualifier_extends b (g q) s
    have h2 := foldl_appendQualifier_extends b g qs (appendQualifier b (g q) s)
    simpa using h1.trans h2

theorem processFeature_extends (b : Int) (gid rid : Nat) (name : String)
    (idx : Nat) (f : FeatureF) (s : ConvState) :
    Extends s (processFeature b gid rid name idx f s)
      [featureRowOf gid rid idx f] (qualRowsOf gid rid idx f) [] 0 := by
  obtain ⟨loc, qs⟩ := f
  have hfold := foldl_appendQualifier_extends b
    (fun q : QualifierQ =>
      ({ genome_id := gid, record_id := rid, feature_index := idx,
         key := q.key, value := q.value } : QualifierRow)) qs
  cases loc with
  | withStrand st en strand =>
      have h1 := appendFeature_extends b
        { genome_id := gid, record_id := rid, feature_index := idx,
          location_start := some st, location_end := some en,
          location_strand := strand.map Strand.str } s
      have h2 := h1.trans (hfold _)
      simpa [processFeature, featureRowOf, qualRowsOf, locationFields] using h2
  | noStrand st en =>
      have hw : Extends s
          ({ s with events := s.events ++ [Event.warn (strandWarning idx name)] })
          [] [] [] 0 :=
        ⟨by simp [featAll], by simp [qualAll], rfl, by simp, rfl, rfl,
          [Event.warn (strandWarning idx name)], rfl⟩
      have h1 := appendFeature_extends b
        { genome_id := gid, record_id := rid, feature_index := idx,
          location_start := st, location_end := en, location_strand := none }
        { s with events := s.events ++ [Event.warn (strandWarning idx name)] }
      have h2 := (hw.trans h1).trans (hfold _)
      simpa [processFeature, featureRowOf, qualRowsOf, locationFields] using h2

theorem foldl_processFeature_extends (b : Int) (gid rid : Nat) (name : String) :
    ∀ (ps : List (Nat × FeatureF)) (s : ConvState),
      Extends s
        (ps.foldl (fun s p => processFeature b gid rid name p.1 p.2 s) s)
        (ps.map (fun p => featureRowOf gid rid p.1 p.2))
        (ps.flatMap (fun p => qualRowsOf gid rid p.1 p.2)) [] 0
  | [], s => Extends.refl s
  | p :: ps, s => by
    have h1 := processFeature_extends b gid rid name p.1 p.2 s
    have h2 := foldl_processFeature_extends b gid rid name ps
      (processFeature b gid rid name p.1 p.2 s)
    simpa using h1.trans h2

theorem processRecord_extends (b : Int) (gid : Nat) (r : GBRecord) (s : ConvState) :
    Extends s (processRecord b gid r s)
      (recFeatureRows gid s.db.nextRecordId r)
      (recQualRows gid s.db.nextRecordId r)
      [recordRowOf gid s.db.nextRecordId r] 1 := by
  have hrec : Extends s
      ({ s with
          db := { s.db with
                    recordTable := s.db.recordTable ++ [recordRowOf gid s.db.nextRecordId r],
                    nextRecordId := s.db.nextRecordId + 1 },
          events := s.events ++ [Event.recordInsert s.db.nextRecordId] })
      [] [] [recordRowOf gid s.db.nextRecordId r] 1 :=
    ⟨by simp [featAll], by simp [qualAll], rfl, rfl, rfl, rfl,
     [Event.recordInsert s.db.nextRecordId], rfl⟩
  have h2 := foldl_processFeature_extends b gid s.db.nextRecordId r.name
    r.features.enum
    ({ s with
        db := { s.db with
                  recordTable := s.db.recordTable ++ [recordRowOf gid s.db.nextRecordId r],
                  nextRecordId := s.db.nextRecordId + 1 },
        events := s.events ++ [Event.recordInsert s.db.nextRecordId] })
  have h3 := hrec.trans h2
  simpa [processRecord, recFeatureRows, recQualRows, recordRowOf] using h3

theorem convertLoop_extends (b : Int) (gid : Nat) :
    ∀ (recs : List GBRecord) (s : ConvState),
      Extends s (convertLoop b gid recs s)
        (allFeatureRows gid s.db.nextRecordId recs)
        (allQualRows gid s.db.nextRecordId recs)
        (allRecordRows gid s.db.nextRecordId recs) recs.length
  | [], s => by
    simpa [convertLoop, allFeatureRows, allQualRows, allRecordRows] using Extends.refl s
  | r :: recs, s => by
    have h1 := processRecord_extends b gid r s
    have h2 := convertLoop_extends b gid recs (processRecord b gid r s)
    rw [h1.2.2.2.2.2.1] at h2
    have h3 := h1.trans h2
    simpa [convertLoop, allFeatureRows, allQualRows, allRecordRows,
      Nat.add_comm 1 recs.length] using h3

/-! ### End-of-input flushes and the final database -/

theorem finalFlushFeature_spec (s : ConvState) :
    (finalFlushFeature s).db.featureTable = featAll s ∧
    (finalFlushFeature s).featureBuf = [] ∧
    (finalFlushFeature s).qualifierBuf = s.qualifierBuf ∧
    (finalFlushFeature s).db.qualifierTable = s.db.qualifierTable ∧
    (finalFlushFeature s).db.genomeTable = s.db.genomeTable ∧
    (finalFlushFeature s).db.recordTable = s.db.recordTable ∧
    (finalFlushFeature s).db.nextGenomeId = s.db.nextGenomeId ∧
    (finalFlushFeature s).db.nextRecordId = s.db.nextRecordId ∧
    (finalFlushFeature s).events =
      s.events ++ (if s.featureBuf.isEmpty then []
                   else [Event.bulkInsert "feature" s.featureBuf.length]) := by
  unfold finalFlushFeature bulk_insert_tuples
  by_cases h : s.featureBuf.isEmpty
  · simp [h, featAll, List.isEmpty_iff.mp h]
  · simp [h, featAll]

theorem finalFlushQualifier_spec (s : ConvState) :
    (finalFlushQualifier s).db.qualifierTable = qualAll s ∧
    (finalFlushQualifier s).qualifierBuf = [] ∧
    (finalFlushQualifier s).featureBuf = s.featureBuf ∧
    (finalFlushQualifier s).db.featureTable = s.db.featureTable ∧
    (finalFlushQualifier s).db.genomeTable = s.db.genomeTable ∧
    (finalFlushQualifier s).db.recordTable = s.db.recordTable ∧
    (finalFlushQualifier s).db.nextGenomeId = s.db.nextGenomeId ∧
    (finalFlushQualifier s).db.nextRecordId = s.db.nextRecordId ∧
    (finalFlushQualifier s).events =
      s.events ++ (if s.qualifierBuf.isEmpty then []
                   else [Event.bulkInsert "qualifier" s.qualifierBuf.length]) := by
  unfold finalFlushQualifier bulk_insert_tuples
  by_cases h : s.qualifierBuf.isEmpty
  · simp [h, qualAll, List.isEmpty_iff.mp h]
  · simp [h, qualAll]

theorem DB_ext {d1 d2 : DB}
    (h1 : d1.genomeTable = d2.genomeTable) (h2 : d1.recordTable = d2.recordTable)
    (h3 : d1.featureTable = d2.featureTable) (h4 : d1.qualifierTable = d2.qualifierTable)
    (h5 : d1.nextGenomeId = d2.nextGenomeId) (h6 : d1.nextRecordId = d2.nextRecordId) :
    d1 = d2 := by
  cases d1; cases d2; simp_all

/-- Master lemma: for every batch size whatsoever, the database left by
`convert_gbk_to_sqlite` is `finalDB` — the flattened rows in file order,
independent of the batching. -/
theorem convert_db_eq (path : String) (b : Int) (recs : List GBRecord) (db0 : DB) :
    (convert_gbk_to_sqlite path b recs db0).db = finalDB path recs db0 := by
  obtain ⟨hf, hq, hg, hr, hng, hnr, δ, hev⟩ :=
    convertLoop_extends b db0.nextGenomeId recs (initState path db0)
  obtain ⟨f1, f2, f3, f4, f5, f6, f7, f8, f9⟩ :=
    finalFlushFeature_spec (convertLoop b db0.nextGenomeId recs (initState path db0))
  obtain ⟨g1, g2, g3, g4, g5, g6, g7, g8, g9⟩ :=
    finalFlushQualifier_spec
      (finalFlushFeature (convertLoop b db0.nextGenomeId recs (initState path db0)))
  have hinit_nr : (initState path db0).db.nextRecordId = db0.nextRecordId := rfl
  rw [hinit_nr] at hf hq hr hnr
  apply DB_ext
  · show (convert_gbk_to_sqlite path b recs db0).db.genomeTable = _
    rw [convert_gbk_to_sqlite]
    rw [g5, f5, hg]
    simp [initState, finalDB]
  · rw [convert_gbk_to_sqlite, g6, f6, hr]
    simp [initState, finalDB]
  · rw [convert_gbk_to_sqlite, g4, f1, hf]
    simp [initState, featAll, finalDB]
  · rw [convert_gbk_to_sqlite, g1]
    show qualAll (finalFlushFeature _) = _
    rw [qualAll, f4, f3]
    rw [show (convertLoop b db0.nextGenomeId recs (initState path db0)).db.qualifierTable ++
          (convertLoop b db0.nextGenomeId recs (initState path db0)).qualifierBuf =
          qualAll (convertLoop b db0.nextGenomeId recs (initState path db0)) from rfl]
    rw [hq]
    simp [initState, qualAll, finalDB]
  · rw [convert_gbk_to_sqlite, g7, f7, hng]
    simp [initState, finalDB]
  · rw [convert_gbk_to_sqlite, g8, f8, hnr]
    simp [initState, finalDB]

/-! ### Helpers on feature indices and record ids -/

theorem recFeatureRows_record_id (gid rid : Nat) (r : GBRecord) :
    ∀ row ∈ recFeatureRows gid rid r, row.record_id = rid := by
  intro row hrow
  simp only [recFeatureRows, List.mem_map] at hrow
  obtain ⟨p, _, hp⟩ := hrow
  rw [← hp]
  rfl

theorem allFeatureRows_record_id_ge (gid : Nat) :
    ∀ (recs : List GBRecord) (rid0 : Nat) (row : FeatureRow),
      row ∈ allFeatureRows gid rid0 recs → rid0 ≤ row.record_id
  | [], rid0, row => by simp [allFeatureRows]
  | r :: recs, rid0, row => by
    intro h
    rw [allFeatureRows, List.mem_append] at h
    rcases h with h | h
    · rw [recFeatureRows_record_id gid rid0 r row h]
    · exact Nat.le_trans (Nat.le_succ rid0)
        (allFeatureRows_record_id_ge gid recs (rid0 + 1) row h)

theorem filter_allFeatureRows (gid : Nat) :
    ∀ (recs : List GBRecord) (rid0 j : Nat), j < recs.length →
      ∀ (hj : j < recs.length),
      (allFeatureRows gid rid0 recs).filter (fun row => row.record_id == rid0 + j) =
        recFeatureRows gid (rid0 + j) (recs.get ⟨j, hj⟩)
  | [], rid0, j, hlt => absurd hlt (by simp)
  | r :: recs, rid0, 0, hlt => by
    intro hj
    rw [allFeatureRows, List.filter_append]
    have h1 : (recFeatureRows gid rid0 r).filter
        (fun row => row.record_id == rid0 + 0) = recFeatureRows gid rid0 r := by
      apply List.filter_eq_self.mpr
      intro row hrow
      simp [recFeatureRows_record_id gid rid0 r row hrow]
    have h2 : (allFeatureRows gid (rid0 + 1) recs).filter
        (fun row => row.record_id == rid0 + 0) = [] := by
      apply List.filter_eq_nil_iff.mpr
      intro row hrow
      have hge := allFeatureRows_record_id_ge gid recs (rid0 + 1) row hrow
      simp only [beq_iff_eq]
      omega
    rw [h1, h2, List.append_nil]
    simp
  | r :: recs, rid0, j + 1, hlt => by
    intro hj
    rw [allFeatureRows, List.filter_append]
    have h1 : (recFeatureRows gid rid0 r).filter
        (fun row => row.record_id == rid0 + (j + 1)) = [] := by
      apply List.filter_eq_nil_iff.mpr
      intro row hrow
      rw [recFeatureRows_record_id gid rid0 r row hrow]
      simp only [beq_iff_eq]
      omega
    have hlt' : j < recs.length := Nat.lt_of_succ_lt_succ hlt
    have h2 := filter_allFeatureRows gid recs (rid0 + 1) j hlt' hlt'
    rw [h1, List.nil_append,
      show rid0 + (j + 1) = rid0 + 1 + j by omega, h2]
    rfl

theorem map_feature_index_recFeatureRows (gid rid : Nat) (r : GBRecord) :
    (recFeatureRows gid rid r).map (fun row => row.feature_index) =
      List.range r.features.length := by
  rw [recFeatureRows, List.map_map]
  have hcomp : ((fun row => row.feature_index) ∘
      fun p : Nat × FeatureF => featureRowOf gid rid p.1 p.2) = Prod.fst := rfl
  rw [hcomp]
  exact List.enum_map_fst _

/-! ### Helpers on event traces -/

/-- `true` iff the trace contains no warning. -/
def warnFree (evs : List Event) : Bool :=
  evs.all (fun e => match e with | .warn _ => false | _ => true)

theorem warnFree_count (m : String) (δ : List Event) (h : warnFree δ = true) :
    δ.count (Event.warn m) = 0 := by
  rw [List.count_eq_zero]
  intro hmem
  have hall := List.all_eq_true.mp h _ hmem
  simp at hall

theorem warnFree_warnCount (δ : List Event) (h : warnFree δ = true) :
    warnCount δ = 0 := by
  apply List.countP_eq_zero.mpr
  intro e hmem
  have hall := List.all_eq_true.mp h _ hmem
  cases e <;> simp_all

theorem appendFeature_events_clean (b : Int) (row : FeatureRow) (s : ConvState) :
    ∃ δ, (appendFeature b row s).events = s.events ++ δ ∧ warnFree δ = true := by
  rw [appendFeature_eq]
  split
  · exact ⟨[Event.bulkInsert "feature" (s.featureBuf.length + 1)], rfl, rfl⟩
  · exact ⟨[], by simp, rfl⟩

theorem appendQualifier_events_clean (b : Int) (row : QualifierRow) (s : ConvState) :
    ∃ δ, (appendQualifier b row s).events = s.events ++ δ ∧ warnFree δ = true := by
  rw [appendQualifier_eq]
  split
  · exact ⟨[Event.bulkInsert "qualifier" (s.qualifierBuf.length + 1)], rfl, rfl⟩
  · exact ⟨[], by simp, rfl⟩

theorem foldl_appendQualifier_events_clean {α : Type} (b : Int) (g : α → QualifierRow) :
    ∀ (qs : List α) (s : ConvState),
      ∃ δ, (qs.foldl (fun s q => appendQualifier b (g q) s) s).events =
          s.events ++ δ ∧ warnFree δ = true
  | [], s => ⟨[], by simp, rfl⟩
  | q :: qs, s => by
    obtain ⟨δ1, h1, w1⟩ := appendQualifier_events_clean b (g q) s
    obtain ⟨δ2, h2, w2⟩ :=
      foldl_appendQualifier_events_clean b g qs (appendQualifier b (g q) s)
    refine ⟨δ1 ++ δ2, ?_, ?_⟩
    · simp only [List.foldl_cons] at h2 ⊢
      rw [h2, h1, List.append_assoc]
    · simp only [warnFree, List.all_append] at w1 w2 ⊢
      rw [w1, w2]
      rfl

theorem processFeature_events (b : Int) (gid rid : Nat) (name : String)
    (idx : Nat) (f : FeatureF) (s : ConvState) :
    ∃ δ, (processFeature b gid rid name idx f s).events =
        s.events ++
          (match f.location with
           | .noStrand _ _ => [Event.warn (strandWarning idx name)]
           | .withStrand _ _ _ => []) ++ δ ∧
      warnFree δ = true := by
  obtain ⟨loc, qs⟩ := f
  have hfold := foldl_appendQualifier_events_clean b
    (fun q : QualifierQ =>
      ({ genome_id := gid, record_id := rid, feature_index := idx,
         key := q.key, value := q.value } : QualifierRow)) qs
  cases loc with
  | withStrand st en strand =>
      obtain ⟨δ1, h1, w1⟩ := appendFeature_events_clean b
        { genome_id := gid, record_id := rid, feature_index := idx,
          location_start := some st, location_end := some en,
          location_strand := strand.map Strand.str } s
      obtain ⟨δ2, h2, w2⟩ := hfold _
      refine ⟨δ1 ++ δ2, ?_, ?_⟩
      · simp only [processFeature, locationFields]
        rw [h2, h1]
        simp [List.append_assoc]
      · simp only [warnFree, List.all_append] at w1 w2 ⊢
        rw [w1, w2]
        rfl
  | noStrand st en =>
      obtain ⟨δ1, h1, w1⟩ := appendFeature_events_clean b
        { genome_id := gid, record_id := rid, feature_index := idx,
          location_start := st, location_end := en, location_strand := none }
        { s with events := s.events ++ [Event.warn (strandWarning idx name)] }
      obtain ⟨δ2, h2, w2⟩ := hfold _
      refine ⟨δ1 ++ δ2, ?_, ?_⟩
      · simp only [processFeature, locationFields]
        rw [h2, h1]
        simp [List.append_assoc]
      · simp only [warnFree, List.all_append] at w1 w2 ⊢
        rw [w1, w2]
        rfl

/-! ### The batching invariant: buffers stay below the batch size -/

/-- Both buffers hold strictly fewer than `b` rows and every bulk-insert
event so far moved at most `b` rows. -/
def invB (b : Int) (s : ConvState) : Prop :=
  ((s.featureBuf.length : Int) < b) ∧ ((s.qualifierBuf.length : Int) < b) ∧
  eventSizesLE b s.events = true

theorem eventSizesLE_append (b : Int) (l1 l2 : List Event) :
    eventSizesLE b (l1 ++ l2) = (eventSizesLE b l1 && eventSizesLE b l2) := by
  simp [eventSizesLE, List.all_append]

theorem appendFeature_invB (b : Int) (row : FeatureRow) (s : ConvState)
    (h : invB b s) : invB b (appendFeature b row s) := by
  obtain ⟨h1, h2, h3⟩ := h
  rw [appendFeature_eq]
  split
  · refine ⟨by simp; omega, h2, ?_⟩
    show eventSizesLE b
      (s.events ++ [Event.bulkInsert "feature" (s.featureBuf.length + 1)]) = true
    rw [eventSizesLE_append, Bool.and_eq_true]
    refine ⟨h3, ?_⟩
    simp only [eventSizesLE, List.all_cons, List.all_nil, Bool.and_true,
      decide_eq_true_eq]
    push_cast
    omega
  · rename_i hlt
    refine ⟨?_, h2, h3⟩
    simp only [List.length_append, List.length_singleton]
    push_cast at hlt ⊢
    omega

theorem appendQualifier_invB (b : Int) (row : QualifierRow) (s : ConvState)
    (h : invB b s) : invB b (appendQualifier b row s) := by
  obtain ⟨h1, h2, h3⟩ := h
  rw [appendQualifier_eq]
  split
  · refine ⟨h1, by simp; omega, ?_⟩
    show eventSizesLE b
      (s.events ++ [Event.bulkInsert "qualifier" (s.qualifierBuf.length + 1)]) = true
    rw [eventSizesLE_append, Bool.and_eq_true]
    refine ⟨h3, ?_⟩
    simp only [eventSizesLE, List.all_cons, List.all_nil, Bool.and_true,
      decide_eq_true_eq]
    push_cast
    omega
  · rename_i hlt
    refine ⟨h1, ?_, h3⟩
    simp only [List.length_append, List.length_singleton]
    push_cast at hlt ⊢
    omega

theorem foldl_appendQualifier_invB {α : Type} (b : Int) (g : α → QualifierRow) :
    ∀ (qs : List α) (s : ConvState), invB b s →
      invB b (qs.foldl (fun s q => appendQualifier b (g q) s) s)
  | [], _, h => h
  | q :: qs, s, h => by
    simp only [List.foldl_cons]
    exact foldl_appendQualifier_invB b g qs _ (appendQualifier_invB b (g q) s h)

theorem invB_append_event (b : Int) (s : ConvState) (e : Event)
    (he : (match e with | Event.bulkInsert _ _ => False | _ => True))
    (h : invB b s) :
    invB b { s with events := s.events ++ [e] } := by
  obtain ⟨h1, h2, h3⟩ := h
  refine ⟨h1, h2, ?_⟩
  show eventSizesLE b (s.events ++ [e]) = true
  rw [eventSizesLE_append, Bool.and_eq_true]
  refine ⟨h3, ?_⟩
  cases e <;> simp_all [eventSizesLE]

theorem processFeature_invB (b : Int) (gid rid : Nat) (name : String)
    (idx : Nat) (f : FeatureF) (s : ConvState) (h : invB b s) :
    invB b (processFeature b gid rid name idx f s) := by
  obtain ⟨loc, qs⟩ := f
  cases loc with
  | withStrand st en strand =>
      exact foldl_appendQualifier_invB b _ qs _
        (appendFeature_invB b _ s h)
  | noStrand st en =>
      exact foldl_appendQualifier_invB b _ qs _
        (appendFeature_invB b _ _
          (invB_append_event b s (Event.warn (strandWarning idx name))
            trivial h))

theorem foldl_processFeature_invB (b : Int) (gid rid : Nat) (name : String) :
    ∀ (ps : List (Nat × FeatureF)) (s : ConvState), invB b s →
      invB b (ps.foldl (fun s p => processFeature b gid rid name p.1 p.2 s) s)
  | [], _, h => h
  | p :: ps, s, h => by
    simp only [List.foldl_cons]
    exact foldl_processFeature_invB b gid rid name ps _
      (processFeature_invB b gid rid name p.1 p.2 s h)

theorem processRecord_invB (b : Int) (gid : Nat) (r : GBRecord)
    (s : ConvState) (h : invB b s) : invB b (processRecord b gid r s) := by
  have hrec : invB b
      ({ s with
          db := { s.db with
                    recordTable := s.db.recordTable ++
                      [recordRowOf gid s.db.nextRecordId r],
                    nextRecordId := s.db.nextRecordId + 1 },
          events := s.events ++ [Event.recordInsert s.db.nextRecordId] }) := by
    obtain ⟨h1, h2, h3⟩ := h
    refine ⟨h1, h2, ?_⟩
    show eventSizesLE b (s.events ++ [Event.recordInsert s.db.nextRecordId]) = true
    rw [eventSizesLE_append, Bool.and_eq_true]
    exact ⟨h3, rfl⟩
  have h2 := foldl_processFeature_invB b gid s.db.nextRecordId r.name
    r.features.enum _ hrec
  simpa [processRecord, recordRowOf] using h2

theorem convertLoop_invB (b : Int) (gid : Nat) :
    ∀ (recs : List GBRecord) (s : ConvState), invB b s →
      invB b (convertLoop b gid recs s)
  | [], _, h => h
  | r :: recs, s, h => by
    simp only [convertLoop, List.foldl_cons]
    exact convertLoop_invB b gid recs _ (processRecord_invB b gid r s h)

theorem finalFlushFeature_invB (b : Int) (s : ConvState) (h : invB b s) :
    invB b (finalFlushFeature s) := by
  obtain ⟨h1, h2, h3⟩ := h
  obtain ⟨_, f2, f3, _, _, _, _, _, f9⟩ := finalFlushFeature_spec s
  refine ⟨?_, ?_, ?_⟩
  · rw [f2]; simp; omega
  · rw [f3]; exact h2
  · rw [f9, eventSizesLE_append, Bool.and_eq_true]
    refine ⟨h3, ?_⟩
    split
    · rfl
    · simp only [eventSizesLE, List.all_cons, List.all_nil, Bool.and_true,
        decide_eq_true_eq]
      omega

theorem finalFlushQualifier_invB (b : Int) (s : ConvState) (h : invB b s) :
    invB b (finalFlushQualifier s) := by
  obtain ⟨h1, h2, h3⟩ := h
  obtain ⟨_, g2, g3, _, _, _, _, _, g9⟩ := finalFlushQualifier_spec s
  refine ⟨?_, ?_, ?_⟩
  · rw [g3]; exact h1
  · rw [g2]; simp; omega
  · rw [g9, eventSizesLE_append, Bool.and_eq_true]
    refine ⟨h3, ?_⟩
    split
    · rfl
    · simp only [eventSizesLE, List.all_cons, List.all_nil, Bool.and_true,
        decide_eq_true_eq]
      omega

theorem initState_invB (b : Int) (hb : 1 ≤ b) (path : String) (db0 : DB) :
    invB b (initState path db0) := by
  refine ⟨?_, ?_, rfl⟩ <;> simp [initState] <;> omega

theorem convert_invB (b : Int) (hb : 1 ≤ b) (path : String)
    (recs : List GBRecord) (db0 : DB) :
    invB b (convert_gbk_to_sqlite path b recs db0) := by
  rw [convert_gbk_to_sqlite]
  exact finalFlushQualifier_invB b _
    (finalFlushFeature_invB b _
      (convertLoop_invB b db0.nextGenomeId recs _ (initState_invB b hb path db0)))

/-! ### Helpers on index creation -/

theorem mem_name_createIndexIfNotExists (idx : IndexDef) (n : String)
    (ixs : List IndexDef) (h : ixs.any (fun i => i.name == n) = true) :
    (createIndexIfNotExists idx ixs).any (fun i => i.name == n) = true := by
  unfold createIndexIfNotExists
  split
  · exact h
  · rw [List.any_append, h]
    rfl

theorem any_self_createIndexIfNotExists (idx : IndexDef) (ixs : List IndexDef) :
    (createIndexIfNotExists idx ixs).any (fun i => i.name == idx.name) = true := by
  unfold createIndexIfNotExists
  split
  · assumption
  · simp

theorem createIndexIfNotExists_present (idx : IndexDef) (ixs : List IndexDef)
    (h : ixs.any (fun i => i.name == idx.name) = true) :
    createIndexIfNotExists idx ixs = ixs := by
  unfold createIndexIfNotExists
  rw [if_pos h]

/-! ### Concrete sample input -/

/-- Record A of the end-to-end scenario: three features, the first with
two qualifiers, the other two with none. -/
def recA : GBRecord :=
  { name := "A", definition := "record A", accession := "ACC_A",
    version := "ACC_A.1",
    features :=
      [ { location := Location.withStrand 0 10 (some Strand.plus),
          qualifiers := [{ key := "locus_tag", value := "A_0001" },
                         { key := "product", value := "hypothetical protein" }] },
        { location := Location.withStrand 20 30 (some Strand.minus),
          qualifiers := [] },
        { location := Location.withStrand 40 50 none,
          qualifiers := [] } ] }

/-- Record B of the end-to-end scenario: no features. -/
def recB : GBRecord :=
  { name := "B", definition := "record B", accession := "ACC_B",
    version := "ACC_B.1", features := [] }

/-- The 2-record input of the end-to-end scenario. -/
def sampleRecords : List GBRecord := [recA, recB]

/-! ### The claims -/

/-- C1: batching is transparent to the output — for every input whose
records parse successfully and any two positive batch sizes, the
conversion produces identical table contents (same genome, record,
feature and qualifier rows, in the same order). -/
theorem batching_transparent (path : String) (b1 b2 : Int)
    (hb1 : 0 < b1) (hb2 : 0 < b2) (recs : List GBRecord) (db0 : DB) :
    (convert_gbk_to_sqlite path b1 recs db0).db =
      (convert_gbk_to_sqlite path b2 recs db0).db := by
  rw [convert_db_eq, convert_db_eq]

theorem batching_transparent_witness :
    (0 : Int) < 1 ∧ (0 : Int) < 5000 ∧
    (convert_gbk_to_sqlite "sample.gbk" 1 sampleRecords emptyDB).db =
      (convert_gbk_to_sqlite "sample.gbk" 5000 sampleRecords emptyDB).db :=
  ⟨by decide, by decide,
   batching_transparent "sample.gbk" 1 5000 (by decide) (by decide)
     sampleRecords emptyDB⟩

/-- C2: for every record yielded by the parser, the Feature rows emitted
for that record carry `feature_index` values exactly `{0, …, count-1}`
in enumeration order (count = the record's feature count), zero-based,
with no gaps or repeats, and no later flush renumbers them — stated on
the final feature table of a conversion from a fresh database, where the
record at position `j` receives record id `j`. -/
theorem feature_index_exact_range (path : String) (b : Int)
    (recs : List GBRecord) (j : Nat) (hj : j < recs.length) :
    (((convert_gbk_to_sqlite path b recs emptyDB).db.featureTable.filter
        (fun row => row.record_id == j)).map (fun row => row.feature_index)) =
      List.range (recs.get ⟨j, hj⟩).features.length := by
  have hfil := filter_allFeatureRows 0 recs 0 j hj hj
  rw [Nat.zero_add] at hfil
  rw [convert_db_eq]
  show ((emptyDB.featureTable ++
      allFeatureRows emptyDB.nextGenomeId emptyDB.nextRecordId recs).filter
        (fun row => row.record_id == j)).map (fun row => row.feature_index) = _
  rw [show emptyDB.featureTable = [] from rfl, List.nil_append,
    show emptyDB.nextGenomeId = 0 from rfl,
    show emptyDB.nextRecordId = 0 from rfl, hfil,
    map_feature_index_recFeatureRows]

theorem feature_index_exact_range_witness :
    0 < sampleRecords.length ∧
    (((convert_gbk_to_sqlite "sample.gbk" 5000 sampleRecords emptyDB).db.featureTable.filter
        (fun row => row.record_id == 0)).map (fun row => row.feature_index)) =
      List.range (sampleRecords.get ⟨0, by decide⟩).features.length :=
  ⟨by decide,
   feature_index_exact_range "sample.gbk" 5000 sampleRecords 0 (by decide)⟩

/-- C3: the location fields of every feature row are determined by the
shape of the feature's location — start/end/strand used directly (strand
in string form, absent when the underlying value is absent) when the
location exposes a strand attribute; otherwise exactly one warning
naming the feature index and record name is emitted (and processing
continues — `processFeature` is total, never a fatal error), strand is
recorded as absent, and start/end are recorded individually if
available. -/
theorem feature_location_fields_and_strand_warning (b : Int)
    (gid rid idx : Nat) (name : String) (f : FeatureF) (s : ConvState) :
    featAll (processFeature b gid rid name idx f s) =
      featAll s ++
        [match f.location with
         | .withStrand st en strand =>
             { genome_id := gid, record_id := rid, feature_index := idx,
               location_start := some st, location_end := some en,
               location_strand := strand.map Strand.str }
         | .noStrand st en =>
             { genome_id := gid, record_id := rid, feature_index := idx,
               location_start := st, location_end := en,
               location_strand := none }] ∧
    warnCount (processFeature b gid rid name idx f s).events =
      warnCount s.events +
        (match f.location with
         | .noStrand _ _ => 1 | .withStrand _ _ _ => 0) ∧
    (processFeature b gid rid name idx f s).events.count
        (Event.warn (strandWarning idx name)) =
      s.events.count (Event.warn (strandWarning idx name)) +
        (match f.location with
         | .noStrand _ _ => 1 | .withStrand _ _ _ => 0) := by
  obtain ⟨hfeat, -, -, -, -, -, -⟩ := processFeature_extends b gid rid name idx f s
  obtain ⟨δ, hev, hδ⟩ := processFeature_events b gid rid name idx f s
  refine ⟨?_, ?_, ?_⟩
  · rw [hfeat]
    obtain ⟨loc, qs⟩ := f
    cases loc <;> rfl
  · rw [hev]
    have hδ0 := warnFree_warnCount δ hδ
    obtain ⟨loc, qs⟩ := f
    cases loc <;>
      simp_all [warnCount, List.countP_append, List.countP_cons]
  · rw [hev]
    have hδ0 := warnFree_count (strandWarning idx name) δ hδ
    obtain ⟨loc, qs⟩ := f
    cases loc <;>
      simp_all [List.count_append, List.count_cons]

/-- C4: appending a tuple to either stream's buffer checks that buffer's
length; at or above `batch_size` exactly that stream's buffered rows are
bulk-inserted in one call and that buffer is cleared, else the row just
stays buffered; the two buffers are independent — an append on one
stream never touches the other stream's buffer or table. -/
theorem append_checks_threshold_and_flushes_own_stream (b : Int)
    (frow : FeatureRow) (qrow : QualifierRow) (s : ConvState) :
    (appendFeature b frow s =
      if ((s.featureBuf.length + 1 : Int) ≥ b) then
        { s with db := { s.db with
                   featureTable := s.db.featureTable ++ (s.featureBuf ++ [frow]) },
                 featureBuf := [],
                 events := s.events ++
                   [Event.bulkInsert "feature" (s.featureBuf.length + 1)] }
      else { s with featureBuf := s.featureBuf ++ [frow] }) ∧
    (appendFeature b frow s).qualifierBuf = s.qualifierBuf ∧
    (appendFeature b frow s).db.qualifierTable = s.db.qualifierTable ∧
    (appendQualifier b qrow s =
      if ((s.qualifierBuf.length + 1 : Int) ≥ b) then
        { s with db := { s.db with
                   qualifierTable := s.db.qualifierTable ++ (s.qualifierBuf ++ [qrow]) },
                 qualifierBuf := [],
                 events := s.events ++
                   [Event.bulkInsert "qualifier" (s.qualifierBuf.length + 1)] }
      else { s with qualifierBuf := s.qualifierBuf ++ [qrow] }) ∧
    (appendQualifier b qrow s).featureBuf = s.featureBuf ∧
    (appendQualifier b qrow s).db.featureTable = s.db.featureTable := by
  refine ⟨appendFeature_eq b frow s, ?_, ?_, appendQualifier_eq b qrow s, ?_, ?_⟩ <;>
    first
      | (rw [appendFeature_eq]; split <;> rfl)
      | (rw [appendQualifier_eq]; split <;> rfl)

/-- C5: after all records are consumed each non-empty buffer is flushed
exactly once, regardless of size — a run's trace is the loop trace plus
at most one feature bulk insert and one qualifier bulk insert, each
present exactly when its buffer is non-empty — and a bulk insert given
an empty list performs no insert at all (no transaction opened). -/
theorem final_flush_once_and_empty_insert_noop :
    (∀ (α : Type) (t : List α), bulk_insert_tuples [] t = (t, false)) ∧
    (∀ (path : String) (b : Int) (recs : List GBRecord) (db0 : DB),
      (convert_gbk_to_sqlite path b recs db0).events =
        (convertLoop b db0.nextGenomeId recs (initState path db0)).events ++
          (if (convertLoop b db0.nextGenomeId recs (initState path db0)).featureBuf.isEmpty
           then []
           else [Event.bulkInsert "feature"
                  (convertLoop b db0.nextGenomeId recs (initState path db0)).featureBuf.length]) ++
          (if (convertLoop b db0.nextGenomeId recs (initState path db0)).qualifierBuf.isEmpty
           then []
           else [Event.bulkInsert "qualifier"
                  (convertLoop b db0.nextGenomeId recs (initState path db0)).qualifierBuf.length])) := by
  constructor
  · intro α t
    rfl
  · intro path b recs db0
    obtain ⟨-, -, f3, -, -, -, -, -, f9⟩ :=
      finalFlushFeature_spec (convertLoop b db0.nextGenomeId recs (initState path db0))
    obtain ⟨-, -, -, -, -, -, -, -, g9⟩ :=
      finalFlushQualifier_spec
        (finalFlushFeature (convertLoop b db0.nextGenomeId recs (initState path db0)))
    rw [convert_gbk_to_sqlite, g9, f9, f3, List.append_assoc]

/-- C6: converting the 2-record sample file (record A: 3 features, one
with 2 qualifiers and two with 0; record B: 0 features) with
batch_size = 2 yields exactly 2 qualifier rows, 3 feature rows, 2 record
rows and 1 genome row, and the feature buffer is flushed at least once
mid-stream, before end-of-input. -/
theorem convert_end_to_end_sample :
    (convert_gbk_to_sqlite "sample.gbk" 2 sampleRecords emptyDB).db.qualifierTable.length = 2 ∧
    (convert_gbk_to_sqlite "sample.gbk" 2 sampleRecords emptyDB).db.featureTable.length = 3 ∧
    (convert_gbk_to_sqlite "sample.gbk" 2 sampleRecords emptyDB).db.recordTable.length = 2 ∧
    (convert_gbk_to_sqlite "sample.gbk" 2 sampleRecords emptyDB).db.genomeTable.length = 1 ∧
    1 ≤ (convertLoop 2 emptyDB.nextGenomeId sampleRecords
          (initState "sample.gbk" emptyDB)).events.countP
            (fun e => match e with
              | Event.bulkInsert t _ => t == "feature"
              | _ => false) := by
  decide

/-- C7: index creation is idempotent — running `create_indexes` twice
leaves the catalog exactly as running it once, and from an empty catalog
it creates precisely the four named secondary indexes, once each. -/
theorem create_indexes_idempotent :
    (∀ ixs, create_indexes (create_indexes ixs) = create_indexes ixs) ∧
    create_indexes [] =
      [ { name := "idx_qualifier_feature", table := "qualifier",
          columns := ["feature"] },
        { name := "idx_qualifier_feature_key", table := "qualifier",
          columns := ["feature", "key"] },
        { name := "idx_feature_record", table := "feature",
          columns := ["record"] },
        { name := "idx_record_genome", table := "record",
          columns := ["genome"] } ] := by
  constructor
  · intro ixs
    have h1 : (create_indexes ixs).any
        (fun i => i.name == "idx_qualifier_feature") = true := by
      rw [create_indexes]
      apply mem_name_createIndexIfNotExists
      apply mem_name_createIndexIfNotExists
      apply mem_name_createIndexIfNotExists
      exact any_self_createIndexIfNotExists _ ixs
    have h2 : (create_indexes ixs).any
        (fun i => i.name == "idx_qualifier_feature_key") = true := by
      rw [create_indexes]
      apply mem_name_createIndexIfNotExists
      apply mem_name_createIndexIfNotExists
      exact any_self_createIndexIfNotExists _ _
    have h3 : (create_indexes ixs).any
        (fun i => i.name == "idx_feature_record") = true := by
      rw [create_indexes]
      apply mem_name_createIndexIfNotExists
      exact any_self_createIndexIfNotExists _ _
    have h4 : (create_indexes ixs).any
        (fun i => i.name == "idx_record_genome") = true := by
      rw [create_indexes]
      exact any_self_createIndexIfNotExists _ _
    conv_lhs => rw [create_indexes]
    rw [createIndexIfNotExists_present
          { name := "idx_qualifier_feature", table := "qualifier",
            columns := ["feature"] } (create_indexes ixs) h1,
        createIndexIfNotExists_present
          { name := "idx_qualifier_feature_key", table := "qualifier",
            columns := ["feature", "key"] } (create_indexes ixs) h2,
        createIndexIfNotExists_present
          { name := "idx_feature_record", table := "feature",
            columns := ["record"] } (create_indexes ixs) h3,
        createIndexIfNotExists_present
          { name := "idx_record_genome", table := "record",
            columns := ["genome"] } (create_indexes ixs) h4]
  · rfl

/-- C8: for every batch_size ≥ 1, after each append-and-check step each
buffer holds strictly fewer than batch_size rows, and consequently every
bulk-insert call made by the conversion moves at most batch_size row
tuples. -/
theorem bulk_insert_sizes_bounded (b : Int) (hb : 1 ≤ b) :
    (∀ (row : FeatureRow) (s : ConvState),
        (s.featureBuf.length : Int) < b ∧ (s.qualifierBuf.length : Int) < b →
        ((appendFeature b row s).featureBuf.length : Int) < b ∧
        ((appendFeature b row s).qualifierBuf.length : Int) < b) ∧
    (∀ (row : QualifierRow) (s : ConvState),
        (s.featureBuf.length : Int) < b ∧ (s.qualifierBuf.length : Int) < b →
        ((appendQualifier b row s).featureBuf.length : Int) < b ∧
        ((appendQualifier b row s).qualifierBuf.length : Int) < b) ∧
    (∀ (path : String) (recs : List GBRecord) (db0 : DB),
        eventSizesLE b (convert_gbk_to_sqlite path b recs db0).events = true) := by
  refine ⟨?_, ?_, ?_⟩
  · intro row s h
    rw [appendFeature_eq]
    split
    · constructor <;> simp <;> omega
    · rename_i hlt
      constructor
      · simp only [List.length_append, List.length_singleton]
        push_cast at hlt ⊢
        omega
      · exact h.2
  · intro row s h
    rw [appendQualifier_eq]
    split
    · constructor <;> simp <;> omega
    · rename_i hlt
      constructor
      · exact h.1
      · simp only [List.length_append, List.length_singleton]
        push_cast at hlt ⊢
        omega
  · intro path recs db0
    exact (convert_invB b hb path recs db0).2.2

theorem bulk_insert_sizes_bounded_witness :
    (1 : Int) ≤ 2 ∧
    eventSizesLE 2 (convert_gbk_to_sqlite "sample.gbk" 2 sampleRecords emptyDB).events = true :=
  ⟨by decide,
   (bulk_insert_sizes_bounded 2 (by decide)).2.2 "sample.gbk" sampleRecords emptyDB⟩

/-- C9: the Genome row for `gbk_path` is inserted and committed before
any record is read — even when iteration aborts after `okRecords`
records (possibly zero, i.e. on opening the file), the genome insert is
the first event of the trace and the Genome row is in the table and
never removed. -/
theorem genome_row_precedes_reading (path : String) (b : Int)
    (okRecords : List GBRecord) (db0 : DB) :
    (convertAborted path b okRecords db0).db.genomeTable =
      db0.genomeTable ++ [{ id := db0.nextGenomeId, gbk_path := path }] ∧
    (convertAborted path b okRecords db0).events.head? =
      some (Event.genomeInsert db0.nextGenomeId) := by
  obtain ⟨-, -, hg, -, -, -, δ, hev⟩ :=
    convertLoop_extends b db0.nextGenomeId okRecords (initState path db0)
  constructor
  · rw [convertAborted, hg]
    rfl
  · rw [convertAborted, hev]
    rfl

/-- C10: every batch_size ≤ 0 is tolerated — the conversion terminates
and produces exactly the same table contents, in the same order, as
batch_size = 1, because the length check is satisfied after every single
append: each append flushes immediately, leaving its buffer empty and
logging a bulk insert of the whole buffer. -/
theorem nonpositive_batch_size_degenerates (b : Int) (hb : b ≤ 0) :
    (∀ (path : String) (recs : List GBRecord) (db0 : DB),
        (convert_gbk_to_sqlite path b recs db0).db =
          (convert_gbk_to_sqlite path 1 recs db0).db) ∧
    (∀ (row : FeatureRow) (s : ConvState),
        (appendFeature b row s).featureBuf = [] ∧
        (appendFeature b row s).events =
          s.events ++ [Event.bulkInsert "feature" (s.featureBuf.length + 1)]) ∧
    (∀ (row : QualifierRow) (s : ConvState),
        (appendQualifier b row s).qualifierBuf = [] ∧
        (appendQualifier b row s).events =
          s.events ++ [Event.bulkInsert "qualifier" (s.qualifierBuf.length + 1)]) := by
  refine ⟨?_, ?_, ?_⟩
  · intro path recs db0
    rw [convert_db_eq, convert_db_eq]
  · intro row s
    rw [appendFeature_eq, if_pos (by omega)]
    exact ⟨rfl, rfl⟩
  · intro row s
    rw [appendQualifier_eq, if_pos (by omega)]
    exact ⟨rfl, rfl⟩

theorem nonpositive_batch_size_degenerates_witness :
    (0 : Int) ≤ 0 ∧
    ((∀ (path : String) (recs : List GBRecord) (db0 : DB),
        (convert_gbk_to_sqlite path 0 recs db0).db =
          (convert_gbk_to_sqlite path 1 recs db0).db) ∧
     (∀ (row : FeatureRow) (s : ConvState),
        (appendFeature 0 row s).featureBuf = [] ∧
        (appendFeature 0 row s).events =
          s.events ++ [Event.bulkInsert "feature" (s.featureBuf.length + 1)]) ∧
     (∀ (row : QualifierRow) (s : ConvState),
        (appendQualifier 0 row s).qualifierBuf = [] ∧
        (appendQualifier 0 row s).events =
          s.events ++ [Event.bulkInsert "qualifier" (s.qualifierBuf.length + 1)])) :=
  ⟨by decide, nonpositive_batch_size_degenerates 0 (by decide)⟩

end GbkToSqlite
